import Mathlib

/-!
Shallow embedding of the OTLP gRPC metric export client
(`exporters/otlp/otlpmetric/otlpmetricgrpc/client.go`).

Durations and instants are modelled as integers (nanoseconds); gRPC status
codes as an inductive type; a Go `error` value as `Option GoError` with
`none` standing for `nil`; a `context.Context` as a record of its observable
state (its current `Err()`, its deadline, and its attached outgoing
metadata).  Functions are translated clause for clause from the source.
-/

set_option autoImplicit false

namespace OtlpMetricGrpc

/-- The gRPC status codes (`google.golang.org/grpc/codes`). -/
inductive Code where
  | ok
  | canceled
  | unknown
  | invalidArgument
  | deadlineExceeded
  | notFound
  | alreadyExists
  | permissionDenied
  | resourceExhausted
  | failedPrecondition
  | aborted
  | outOfRange
  | unimplemented
  | internal
  | unavailable
  | dataLoss
  | unauthenticated
  deriving DecidableEq, Repr

/-- One entry of a status's structured detail list.  The source type-switches
on `*errdetails.RetryInfo`; every other detail kind is collapsed into
`other`.  `retryDelay` is the duration `t.RetryDelay.AsDuration()` yields. -/
inductive Detail where
  | retryInfo (retryDelay : Int)
  | other (tag : Nat)
  deriving DecidableEq, Repr

/-- A gRPC `*status.Status`: a code plus a structured detail list. -/
structure Status where
  code : Code
  details : List Detail
  deriving DecidableEq, Repr

/-- A non-nil Go `error` value: either an error carrying a gRPC status
(implementing `GRPCStatus()`), or any other error. -/
inductive GoError where
  | statusErr (s : Status)
  | plain (tag : Nat)
  deriving DecidableEq, Repr

/-- `status.Convert(err)`: `nil` becomes the OK status, a status-bearing
error yields its status, and any other error maps to code Unknown. -/
def Status.convert : Option GoError → Status
  | none => ⟨Code.ok, []⟩
  | some (GoError.statusErr s) => s
  | some (GoError.plain _) => ⟨Code.unknown, []⟩

/-- `status.Code(err)`: the code of the converted status. -/
def statusCode (err : Option GoError) : Code :=
  (Status.convert err).code

/-- The loop body of `throttleDelay`: scan the detail list for the first
`*errdetails.RetryInfo` entry and return its delay; `0` if none occurs. -/
def throttleDelayAux : List Detail → Int
  | [] => 0
  | Detail.retryInfo d :: _ => d
  | Detail.other _ :: rest => throttleDelayAux rest

/-- `throttleDelay(s)`: the wait duration of the first retry-info detail in
`s.Details()`, or `0` when none is present. -/
def throttleDelay (s : Status) : Int :=
  throttleDelayAux s.details

/-- The seven status codes the `switch` in `retryable` marks retry-able. -/
def retryableCodes : List Code :=
  [Code.canceled, Code.deadlineExceeded, Code.resourceExhausted,
   Code.aborted, Code.outOfRange, Code.unavailable, Code.dataLoss]

/-- `retryable(err)`: whether `err` identifies a request that can be retried,
and a duration to wait if an explicit throttle time is included in `err`. -/
def retryable (err : Option GoError) : Bool × Int :=
  let s := Status.convert err
  match s.code with
  | Code.canceled | Code.deadlineExceeded | Code.resourceExhausted
  | Code.aborted | Code.outOfRange | Code.unavailable | Code.dataLoss =>
      (true, throttleDelay s)
  | _ => (false, 0)

/-- The observable state of a `context.Context`: its current `Err()` (none
while the scope is valid), its deadline (an absolute instant), and the
outgoing metadata attached to it. -/
structure Context where
  err : Option GoError
  deadline : Option Int
  md : List (String × String)
  deriving DecidableEq, Repr, Inhabited

/-- `context.WithTimeout(parent, d)` taken at instant `now`: the child's
deadline is `now + d`, bounded by any sooner deadline already on the
parent (whichever is sooner wins). -/
def withTimeout (parent : Context) (now d : Int) : Context :=
  { parent with
      deadline :=
        some (match parent.deadline with
          | none => now + d
          | some pd => min pd (now + d)) }

/-- `context.WithCancel(parent)`: inherits cancellation and deadline from
the parent, adds nothing. -/
def withCancel (parent : Context) : Context :=
  parent

/-- A `*grpc.ClientConn`, reduced to an identity and the error its `Close()`
would report (`none` for a successful close). -/
structure Conn where
  id : Nat
  closeErr : Option GoError
  deriving DecidableEq, Repr

/-- The `client` struct.  `requestFunc` and `msc` are reduced to presence
flags (`some ()` while held, `none` once cleared by `Shutdown`); the pure
selector fields play no part in any claim and are omitted. -/
structure Client where
  metadata : List (String × String)
  exportTimeout : Int
  requestFunc : Option Unit
  ourConn : Bool
  conn : Option Conn
  msc : Option Unit
  deriving DecidableEq, Repr

/-- The slice of the construction-time configuration `newClient` reads:
the export timeout, the header map, and an optional pre-established
connection (`WithGRPCConn`). -/
structure Config where
  timeout : Int
  headers : List (String × String)
  grpcConn : Option Conn
  deriving DecidableEq, Repr

/-- `newClient`: builds the client from the configuration.  When no
connection was supplied, dials one (`dialResult` stands for the outcome of
`grpc.DialContext`) and records ownership in `ourConn`; a dial failure is a
fatal construction error. -/
def newClient (cfg : Config) (dialResult : Except GoError Conn) :
    Except GoError Client :=
  let c : Client :=
    { metadata := if cfg.headers.length > 0 then cfg.headers else []
      exportTimeout := cfg.timeout
      requestFunc := some ()
      ourConn := false
      conn := cfg.grpcConn
      msc := none }
  match cfg.grpcConn with
  | some _ => Except.ok { c with msc := some () }
  | none =>
    match dialResult with
    | Except.error e => Except.error e
    | Except.ok conn =>
        Except.ok { c with ourConn := true, conn := some conn, msc := some () }

/-- `ForceFlush(ctx)`: does nothing, the client holds no state; returns
`ctx.Err()`. -/
def Client.ForceFlush (_c : Client) (ctx : Context) : Option GoError :=
  ctx.err

/-- `Shutdown(ctx)`: clears `metadata`, `requestFunc` and `msc`, closes the
connection only when `ourConn` is set, and returns `ctx.Err()` with the
close error only filling in when no context error is present.  The result
also reports whether `Close` was invoked on the connection; `none` models
the nil-pointer panic of calling `Close` on an already-released owned
connection. -/
def Client.Shutdown (c : Client) (ctx : Context) :
    Option (Client × Bool × Option GoError) :=
  let c1 : Client := { c with metadata := [], requestFunc := none, msc := none }
  let err := ctx.err
  if c.ourConn then
    match c.conn with
    | none => none
    | some cn =>
        let closeErr := cn.closeErr
        let err := if err = none ∧ closeErr ≠ none then closeErr else err
        some ({ c1 with conn := none }, true, err)
  else
    some ({ c1 with conn := none }, false, err)

/-- Repeated invocations of `Shutdown`, threading the client state and
counting how many times the connection was closed; a panicking invocation
aborts the sequence with no further closes. -/
def shutdownSeq : Client → List Context → Client × Nat
  | c, [] => (c, 0)
  | c, ctx :: rest =>
    match c.Shutdown ctx with
    | none => (c, 0)
    | some (c', closed, _) =>
      let r := shutdownSeq c' rest
      (r.1, (if closed then 1 else 0) + r.2)

/-- `exportContext(parent)` taken at instant `now`: applies the configured
export timeout when positive (plain cancellation inheritance otherwise) and
attaches the client's metadata when non-empty. -/
def Client.exportContext (c : Client) (parent : Context) (now : Int) :
    Context :=
  let ctx :=
    if c.exportTimeout > 0 then withTimeout parent now c.exportTimeout
    else withCancel parent
  if c.metadata.length > 0 then { ctx with md := c.metadata } else ctx

/-- The per-attempt operation passed to the retry strategy, applied to the
error the remote `Export` call reported: nil is converted to OK, an OK-coded
error is treated as success, anything else is handed back as the error. -/
def attemptOnce (serverResp : Option GoError) : Option GoError :=
  if statusCode serverResp = Code.ok then none else serverResp

/-- Modelled from the spec: the injected request-retry loop executor
(`retry.RequestFunc`, whose implementation lives outside these sources).
Given the scoped context and the per-call outcomes of the remote endpoint
(one list entry per successive `Export` invocation), it invokes the
operation; on success it stops, on a failure the classifier marks retryable
it waits the throttle delay and retries, and otherwise it propagates the
final error.  It returns the final error and the context each attempt
executed under.  Attempts are unlimited (running out of modelled responses
yields a sentinel error with no further calls). -/
def retryRun (ctx : Context) : List (Option GoError) → Option GoError × List Context
  | [] => (some (GoError.plain 0), [])
  | r :: rest =>
    match attemptOnce r with
    | none => (none, [ctx])
    | some e =>
      if (retryable (some e)).1 then
        let t := retryRun ctx rest
        (t.1, ctx :: t.2)
      else
        (some e, [ctx])

/-- `UploadMetrics(ctx, protoMetrics)`: fails fast with `ctx.Err()` when the
context is already expired (performing no network call), otherwise derives
the export context once and runs the retry strategy under it.  Returns the
final error and the context under which each `Export` network call ran. -/
def Client.UploadMetrics (c : Client) (ctx : Context) (now : Int)
    (server : List (Option GoError)) : Option GoError × List Context :=
  match ctx.err with
  | some e => (some e, [])
  | none => retryRun (c.exportContext ctx now) server

/-! ### Helper definitions and lemmas -/

/-- The retry-delay values of the retry-info details of a list, in order. -/
def retryInfos (l : List Detail) : List Int :=
  l.filterMap fun d =>
    match d with
    | Detail.retryInfo x => some x
    | Detail.other _ => none

theorem throttleDelayAux_eq_headD (l : List Detail) :
    throttleDelayAux l = (retryInfos l).headD 0 := by
  induction l with
  | nil => rfl
  | cons d rest ih =>
    cases d with
    | retryInfo x => simp [throttleDelayAux, retryInfos]
    | other t => simpa [throttleDelayAux, retryInfos] using ih

theorem retryable_fst_iff (err : Option GoError) :
    (retryable err).1 = true ↔ statusCode err ∈ retryableCodes := by
  cases h : (Status.convert err).code <;>
    simp [retryable, statusCode, retryableCodes, h]

theorem retryable_not_mem (err : Option GoError)
    (h : statusCode err ∉ retryableCodes) : retryable err = (false, 0) := by
  cases hc : (Status.convert err).code <;>
    simp [statusCode, hc, retryableCodes] at h <;>
    simp [retryable, hc]

theorem retryable_snd_eq (err : Option GoError)
    (h : (retryable err).1 = true) :
    (retryable err).2 = throttleDelay (Status.convert err) := by
  have hm : statusCode err ∈ retryableCodes := (retryable_fst_iff err).mp h
  cases hc : (Status.convert err).code <;>
    simp [statusCode, hc, retryableCodes] at hm <;>
    simp [retryable, hc]

/-! ### Claim theorems -/

/-- Claim C2: for every error whose status code is one of the seven codes
canceled, deadline-exceeded, resource-exhausted, aborted, out-of-range,
unavailable, or data-loss, `retryable` returns `true`; for every error with
any other status code it returns `(false, 0)`. -/
theorem retryable_code_partition (err : Option GoError) :
    ((retryable err).1 = true ↔ statusCode err ∈ retryableCodes) ∧
    (statusCode err ∉ retryableCodes → retryable err = (false, 0)) :=
  ⟨retryable_fst_iff err, retryable_not_mem err⟩

/-- Witness for C2 at the code `unavailable` (retryable) and the code
`invalidArgument` (not retryable). -/
theorem retryable_code_partition_witness :
    (retryable (some (GoError.statusErr ⟨Code.unavailable, []⟩))).1 = true ∧
    retryable (some (GoError.statusErr ⟨Code.invalidArgument, []⟩)) =
      (false, 0) :=
  ⟨(retryable_code_partition
      (some (GoError.statusErr ⟨Code.unavailable, []⟩))).1.mpr (by decide),
   (retryable_code_partition
      (some (GoError.statusErr ⟨Code.invalidArgument, []⟩))).2 (by decide)⟩

/-- Claim C3: for every retryable-classified error whose status details hold
exactly one retry-info detail carrying duration `D`, the classifier returns
throttle delay `D`; for every retryable error with no retry-info detail it
returns `0`. -/
theorem throttleDelay_extraction (err : Option GoError)
    (h : (retryable err).1 = true) :
    (∀ D : Int, retryInfos (Status.convert err).details = [D] →
        (retryable err).2 = D) ∧
    (retryInfos (Status.convert err).details = [] →
        (retryable err).2 = 0) := by
  have hs := retryable_snd_eq err h
  constructor
  · intro D hD
    rw [hs, throttleDelay, throttleDelayAux_eq_headD, hD]
    rfl
  · intro h0
    rw [hs, throttleDelay, throttleDelayAux_eq_headD, h0]
    rfl

/-- Witness for C3: an unavailable error carrying a retry-info of 42 yields
delay 42; a resource-exhausted error with no retry-info yields 0. -/
theorem throttleDelay_extraction_witness :
    (retryable (some (GoError.statusErr
        ⟨Code.unavailable, [Detail.other 3, Detail.retryInfo 42]⟩))).2 = 42 ∧
    (retryable (some (GoError.statusErr
        ⟨Code.resourceExhausted, [Detail.other 1]⟩))).2 = 0 :=
  ⟨(throttleDelay_extraction _ (by decide)).1 42 (by decide),
   (throttleDelay_extraction _ (by decide)).2 (by decide)⟩

/-- Claim C9 (implicit): when a retryable error's detail list holds more
than one retry-info detail, the classifier returns the delay of the first
one in list order; details of other kinds are skipped. -/
theorem first_retry_info_wins (err : Option GoError) (D : Int)
    (Ds : List Int) (hc : statusCode err ∈ retryableCodes)
    (h : retryInfos (Status.convert err).details = D :: Ds) :
    (retryable err).2 = D := by
  have h1 : (retryable err).1 = true := (retryable_fst_iff err).mpr hc
  rw [retryable_snd_eq err h1, throttleDelay, throttleDelayAux_eq_headD, h]
  rfl

/-- Witness for C9: with details `[other 0, retryInfo 5, retryInfo 7]` the
classifier returns 5, the delay of the first retry-info. -/
theorem first_retry_info_wins_witness :
    (retryable (some (GoError.statusErr
        ⟨Code.aborted,
         [Detail.other 0, Detail.retryInfo 5, Detail.retryInfo 7]⟩))).2 = 5 :=
  first_retry_info_wins _ 5 [7] (by decide) (by decide)

/-- Claim C7: `ForceFlush` performs no work and returns exactly the input
scope's error state (`none` when the scope is still valid). -/
theorem forceFlush_returns_ctx_err (c : Client) (ctx : Context) :
    c.ForceFlush ctx = ctx.err :=
  rfl

theorem Shutdown_eq_borrowed (c : Client) (ctx : Context)
    (ho : c.ourConn = false) :
    c.Shutdown ctx =
      some ({ c with metadata := [], requestFunc := none, msc := none,
                     conn := none },
            false, ctx.err) := by
  simp [Client.Shutdown, ho]

theorem Shutdown_eq_owned (c : Client) (ctx : Context) (cn : Conn)
    (ho : c.ourConn = true) (hc : c.conn = some cn) :
    c.Shutdown ctx =
      some ({ c with metadata := [], requestFunc := none, msc := none,
                     conn := none },
            true,
            if ctx.err = none ∧ cn.closeErr ≠ none then cn.closeErr
            else ctx.err) := by
  simp [Client.Shutdown, ho, hc]

theorem Shutdown_closed_eq_ourConn (c : Client) (ctx : Context) (c' : Client)
    (closed : Bool) (r : Option GoError)
    (h : c.Shutdown ctx = some (c', closed, r)) : closed = c.ourConn := by
  cases ho : c.ourConn with
  | false =>
    rw [Shutdown_eq_borrowed c ctx ho] at h
    have h2 := Option.some.inj h
    exact (congrArg (fun t => t.2.1) h2).symm
  | true =>
    cases hc : c.conn with
    | none => simp [Client.Shutdown, ho, hc] at h
    | some cn =>
      rw [Shutdown_eq_owned c ctx cn ho hc] at h
      have h2 := Option.some.inj h
      exact (congrArg (fun t => t.2.1) h2).symm

theorem shutdownSeq_borrowed :
    ∀ (ctxs : List Context) (c : Client), c.ourConn = false →
      (shutdownSeq c ctxs).2 = 0 := by
  intro ctxs
  induction ctxs with
  | nil => intro c _; rfl
  | cons ctx rest ih =>
    intro c ho
    rw [shutdownSeq, Shutdown_eq_borrowed c ctx ho]
    simp
    exact ih _ ho

theorem shutdownSeq_panicked (c : Client) (ho : c.ourConn = true)
    (hc : c.conn = none) :
    ∀ ctxs : List Context, (shutdownSeq c ctxs).2 = 0 := by
  intro ctxs
  cases ctxs with
  | nil => rfl
  | cons ctx rest => simp [shutdownSeq, Client.Shutdown, ho, hc]

theorem shutdownSeq_owned (c : Client) (cn : Conn) (ho : c.ourConn = true)
    (hc : c.conn = some cn) (ctx : Context) (rest : List Context) :
    (shutdownSeq c (ctx :: rest)).2 = 1 := by
  rw [shutdownSeq, Shutdown_eq_owned c ctx cn ho hc]
  have h0 := shutdownSeq_panicked
      { c with metadata := [], requestFunc := none, msc := none, conn := none }
      ho rfl rest
  simpa using h0

/-- A client as dialed by `newClient` (it owns its connection). -/
def sampleClient : Client :=
  { metadata := [], exportTimeout := 2000000000, requestFunc := some ()
    ourConn := true, conn := some ⟨0, none⟩, msc := some () }

/-- An owned-connection client whose connection fails to close. -/
def sampleBadCloseClient : Client :=
  { metadata := [], exportTimeout := 0, requestFunc := some ()
    ourConn := true, conn := some ⟨2, some (GoError.plain 5)⟩, msc := some () }

/-- A still-valid scope with no deadline. -/
def sampleCtx : Context :=
  { err := none, deadline := none, md := [] }

/-- A still-valid scope whose deadline is sooner than any export timeout. -/
def sampleEarlyCtx : Context :=
  { err := none, deadline := some 1, md := [] }

/-- An already-cancelled scope. -/
def sampleCanceledCtx : Context :=
  { err := some (GoError.plain 99), deadline := none, md := [] }

/-- Claim C5: `Shutdown` returns the scope's cancellation error whenever the
scope is expired, no matter how closing the owned connection went; with a
valid scope it returns the close error of an owned connection (no error for
a borrowed one or a successful close). -/
theorem shutdown_error_precedence (c : Client) (ctx : Context) (cn : Conn)
    (hconn : c.conn = some cn) :
    (∀ e, ctx.err = some e →
        (c.Shutdown ctx).map (fun t => t.2.2) = some (some e)) ∧
    (ctx.err = none →
        (c.Shutdown ctx).map (fun t => t.2.2) =
          some (if c.ourConn then cn.closeErr else none)) := by
  constructor
  · intro e he
    cases ho : c.ourConn with
    | false => rw [Shutdown_eq_borrowed c ctx ho]; simp [he]
    | true => rw [Shutdown_eq_owned c ctx cn ho hconn]; simp [he]
  · intro he
    cases ho : c.ourConn with
    | false => rw [Shutdown_eq_borrowed c ctx ho]; simp [he, ho]
    | true =>
      rw [Shutdown_eq_owned c ctx cn ho hconn]
      cases hce : cn.closeErr <;> simp [he, hce, ho]

/-- Witness for C5: an expired scope wins over a failing close; with a valid
scope the failing close error is returned. -/
theorem shutdown_error_precedence_witness :
    (sampleBadCloseClient.Shutdown sampleCanceledCtx).map (fun t => t.2.2) =
      some (some (GoError.plain 99)) ∧
    (sampleBadCloseClient.Shutdown sampleCtx).map (fun t => t.2.2) =
      some (if sampleBadCloseClient.ourConn then
              (⟨2, some (GoError.plain 5)⟩ : Conn).closeErr else none) :=
  ⟨(shutdown_error_precedence sampleBadCloseClient sampleCanceledCtx
      ⟨2, some (GoError.plain 5)⟩ rfl).1 (GoError.plain 99) rfl,
   (shutdown_error_precedence sampleBadCloseClient sampleCtx
      ⟨2, some (GoError.plain 5)⟩ rfl).2 rfl⟩

/-- Claim C1: `Shutdown` closes the connection iff the client dialed it
itself (`ourConn`); a client built on a caller-supplied connection never
closes it over any sequence of `Shutdown` calls, and a client that dialed
its own connection closes it exactly once over any non-empty sequence. -/
theorem connection_ownership (cfg : Config) (dial : Except GoError Conn)
    (cl : Client) (h : newClient cfg dial = Except.ok cl) :
    (∀ ctx c' closed r, cl.Shutdown ctx = some (c', closed, r) →
        closed = cl.ourConn) ∧
    (cfg.grpcConn ≠ none →
        cl.ourConn = false ∧
        ∀ ctxs : List Context, (shutdownSeq cl ctxs).2 = 0) ∧
    (cfg.grpcConn = none →
        cl.ourConn = true ∧
        ∀ (ctx : Context) (rest : List Context),
          (shutdownSeq cl (ctx :: rest)).2 = 1) := by
  refine ⟨fun ctx c' closed r hr => Shutdown_closed_eq_ourConn _ _ _ _ _ hr,
          ?_, ?_⟩
  · intro hg
    cases hgc : cfg.grpcConn with
    | none => exact absurd hgc hg
    | some cn0 =>
      simp [newClient, hgc] at h
      have ho : cl.ourConn = false := by rw [← h]
      exact ⟨ho, fun ctxs => shutdownSeq_borrowed ctxs cl ho⟩
  · intro hg
    simp [newClient, hg] at h
    cases dial with
    | error e => simp at h
    | ok cn =>
      simp at h
      have ho : cl.ourConn = true := by rw [← h]
      have hc : cl.conn = some cn := by rw [← h]
      exact ⟨ho, fun ctx rest => shutdownSeq_owned cl cn ho hc ctx rest⟩

/-- Witness for C1: a dialed client closes its connection exactly once over
a two-call shutdown sequence. -/
theorem connection_ownership_witness :
    (shutdownSeq sampleClient [sampleCtx, sampleCtx]).2 = 1 :=
  ((connection_ownership ⟨2000000000, [], none⟩ (Except.ok ⟨0, none⟩)
      sampleClient rfl).2.2 rfl).2 sampleCtx [sampleCtx]

theorem exportContext_deadline_eq (c : Client) (parent : Context)
    (now : Int) :
    (c.exportContext parent now).deadline =
      if c.exportTimeout > 0 then
        some (match parent.deadline with
          | none => now + c.exportTimeout
          | some pd => min pd (now + c.exportTimeout))
      else parent.deadline := by
  by_cases hm : c.metadata.length > 0 <;>
  by_cases ht : c.exportTimeout > 0 <;>
    simp [Client.exportContext, withTimeout, withCancel, hm, ht]

theorem exportContext_err_eq (c : Client) (parent : Context) (now : Int) :
    (c.exportContext parent now).err = parent.err := by
  by_cases hm : c.metadata.length > 0 <;>
  by_cases ht : c.exportTimeout > 0 <;>
    simp [Client.exportContext, withTimeout, withCancel, hm, ht]

/-- Claim C6: with `exportTimeout > 0` the derived scope's deadline is
`now + exportTimeout` when the parent has no sooner deadline, and the
parent's deadline when the parent's is sooner; with `exportTimeout = 0` the
derived scope adds no deadline and only inherits the parent's state. -/
theorem exportContext_deadline_composition (c : Client) (parent : Context)
    (now : Int) :
    (c.exportTimeout > 0 →
      ((∀ pd, parent.deadline = some pd → now + c.exportTimeout ≤ pd) →
          (c.exportContext parent now).deadline =
            some (now + c.exportTimeout)) ∧
      (∀ pd, parent.deadline = some pd → pd ≤ now + c.exportTimeout →
          (c.exportContext parent now).deadline = some pd)) ∧
    (c.exportTimeout = 0 →
      (c.exportContext parent now).deadline = parent.deadline ∧
      (c.exportContext parent now).err = parent.err) := by
  constructor
  · intro ht
    constructor
    · intro hno
      rw [exportContext_deadline_eq]
      cases hd : parent.deadline with
      | none => simp [ht]
      | some pd => simp [ht, min_eq_right (hno pd hd)]
    · intro pd hd hle
      rw [exportContext_deadline_eq]
      simp [ht, hd, min_eq_left hle]
  · intro ht
    rw [exportContext_deadline_eq, exportContext_err_eq]
    simp [ht]

/-- Witness for C6: with a 2-second timeout taken at instant 0, a parent
with no deadline yields deadline `0 + 2000000000`, and a parent with the
sooner deadline 1 keeps it. -/
theorem exportContext_deadline_composition_witness :
    (sampleClient.exportContext sampleCtx 0).deadline =
      some (0 + 2000000000) ∧
    (sampleClient.exportContext sampleEarlyCtx 0).deadline = some 1 :=
  ⟨((exportContext_deadline_composition sampleClient sampleCtx 0).1
      (by decide)).1 (fun pd h => by simp [sampleCtx] at h),
   ((exportContext_deadline_composition sampleClient sampleEarlyCtx 0).1
      (by decide)).2 1 rfl (by decide)⟩

/-- Claim C4: `UploadMetrics` on an already-expired scope performs zero
network calls, never invokes the retry strategy at all, and returns exactly
that scope's error. -/
theorem uploadMetrics_preflight_cancellation (c : Client) (ctx : Context)
    (now : Int) (server : List (Option GoError)) (e : GoError)
    (h : ctx.err = some e) :
    c.UploadMetrics ctx now server = (some e, []) := by
  simp [Client.UploadMetrics, h]

/-- Witness for C4 at an already-cancelled scope. -/
theorem uploadMetrics_preflight_cancellation_witness :
    sampleClient.UploadMetrics sampleCanceledCtx 0 [none] =
      (some (GoError.plain 99), []) :=
  uploadMetrics_preflight_cancellation sampleClient sampleCanceledCtx 0
    [none] (GoError.plain 99) rfl

theorem retryRun_contexts (ctx0 : Context) :
    ∀ server : List (Option GoError),
      ∀ x ∈ (retryRun ctx0 server).2, x = ctx0 := by
  intro server
  induction server with
  | nil => simp [retryRun]
  | cons r rest ih =>
    intro x hx
    cases ha : attemptOnce r with
    | none =>
      simp [retryRun, ha] at hx
      exact hx
    | some e =>
      by_cases hr : (retryable (some e)).1 = true
      · simp [retryRun, ha, hr] at hx
        rcases hx with hx | hx
        · exact hx
        · exact ih x hx
      · simp [retryRun, ha, hr] at hx
        exact hx

/-- Claim C8: within one `UploadMetrics` call on a valid scope, every
`Export` network attempt runs under the one export scope derived before the
retry strategy was invoked; no attempt runs under any other scope. -/
theorem uploadMetrics_single_scope (c : Client) (ctx : Context) (now : Int)
    (server : List (Option GoError)) (h : ctx.err = none) (x : Context)
    (hx : x ∈ (c.UploadMetrics ctx now server).2) :
    x = c.exportContext ctx now := by
  simp only [Client.UploadMetrics, h] at hx
  exact retryRun_contexts _ server x hx

/-- The remote endpoint failing twice with the unavailable code and then
succeeding. -/
def sampleServer : List (Option GoError) :=
  [some (GoError.statusErr ⟨Code.unavailable, []⟩),
   some (GoError.statusErr ⟨Code.unavailable, []⟩),
   none]

/-- Witness for C8: with two unavailable failures then a success, the call
succeeds after exactly three attempts and the first attempt's scope is the
derived export scope. -/
theorem uploadMetrics_single_scope_witness :
    (sampleClient.UploadMetrics sampleCtx 0 sampleServer).2.getD 0 default =
      sampleClient.exportContext sampleCtx 0 ∧
    (sampleClient.UploadMetrics sampleCtx 0 sampleServer).2.length = 3 ∧
    (sampleClient.UploadMetrics sampleCtx 0 sampleServer).1 = none :=
  ⟨uploadMetrics_single_scope sampleClient sampleCtx 0 sampleServer rfl _
      (by decide),
   by decide, by decide⟩

/-- Claim C10: a non-nil error from the remote call whose status code is OK
is treated as a success by the per-attempt operation: `UploadMetrics`
returns no error after that single attempt and the error value is
discarded. -/
theorem uploadMetrics_ok_error_swallowed (c : Client) (ctx : Context)
    (now : Int) (e : GoError) (rest : List (Option GoError))
    (h : ctx.err = none) (hok : statusCode (some e) = Code.ok) :
    c.UploadMetrics ctx now (some e :: rest) =
      (none, [c.exportContext ctx now]) := by
  simp only [Client.UploadMetrics, h]
  simp [retryRun, attemptOnce, hok]

/-- Witness for C10: a status-bearing error with code OK is swallowed. -/
theorem uploadMetrics_ok_error_swallowed_witness :
    sampleClient.UploadMetrics sampleCtx 0
        [some (GoError.statusErr ⟨Code.ok, [Detail.other 4]⟩), none] =
      (none, [sampleClient.exportContext sampleCtx 0]) :=
  uploadMetrics_ok_error_swallowed sampleClient sampleCtx 0
    (GoError.statusErr ⟨Code.ok, [Detail.other 4]⟩) [none] rfl rfl

end OtlpMetricGrpc
